import Mathlib

/-!
Verification of the lirasm front-end (nanojit's textual LIR assembler).

The definitions below are a shallow embedding of the C++ source
(`src/unnamed/part_000`, with constants from `src/nanojit/nanojit.h`).
Each definition's doc comment names the C++ function or data it embeds.
Where the build configuration matters we model an x86-64
(`NANOJIT_64BIT`, no soft-float hardware need) build, except that the
writer-pipeline construction keeps all configuration switches as
explicit parameters.
-/

namespace Lirasm

/-! ## Tokenizer (`LirTokenStream`, part_000 lines 90-170) -/

/-- `enum LirTokenType { NAME, NUMBER, PUNCT, NEWLINE }` (line 90). -/
inductive LirTokenType where
  | NAME
  | NUMBER
  | PUNCT
  | NEWLINE
deriving DecidableEq, Repr

/-- `struct LirToken { LirTokenType type; string data; int lineno; }` (line 94). -/
structure LirToken where
  type : LirTokenType
  data : List Char
  lineno : Nat
deriving DecidableEq, Repr

/-- The identifier-run character set of `get`:
`"0123456789abcdefghijklmnopqrstuvwxyzABCDEFGHIJKLMNOPQRSTUVWXYZ_$.+-"`
(line 120, argument of `find_first_not_of`). -/
def identChars : List Char :=
  "0123456789abcdefghijklmnopqrstuvwxyzABCDEFGHIJKLMNOPQRSTUVWXYZ_$.+-".data

/-- Membership in the identifier-run character set. -/
def isIdentChar (c : Char) : Bool := identChars.contains c

/-- The horizontal whitespace set `" \t\v\r"` skipped at line 118. -/
def isHorizWS (c : Char) : Bool :=
  c = ' ' ∨ c = '\t' ∨ c = '\x0b' ∨ c = '\r'

/-- The single-character punctuation set `":,=[]()"` (line 135). -/
def punctChars : List Char := [':', ',', '=', '[', ']', '(', ')']

/-- Classification of an identifier-like run `s` of length `e`
(lines 128-133):
`if (e > 1 && s[0]=='0' && (s[1]=='x' || s[1]=='X')) NUMBER
 else if (isdigit(s[0]) || (e > 1 && s[0]=='.' && isdigit(s[1]))) NUMBER
 else NAME`. -/
def classifyRun (s : List Char) : LirTokenType :=
  if 1 < s.length ∧ s.getD 0 ' ' = '0' ∧ (s.getD 1 ' ' = 'x' ∨ s.getD 1 ' ' = 'X') then
    .NUMBER
  else if (s.getD 0 ' ').isDigit ∨ (1 < s.length ∧ s.getD 0 ' ' = '.' ∧ (s.getD 1 ' ').isDigit) then
    .NUMBER
  else
    .NAME

/-- Tokenizer state: `mIn` (the remaining input lines, without their
newline characters), the current line remainder `mLine`, and `mLineno`
(`LirTokenStream`, lines 107-170).  States reachable from the start of a
file keep the invariant that `mLine` is empty or ends with `'\n'`
(`mLine += '\n'` at line 115). -/
structure TokState where
  lines : List (List Char)
  mLine : List Char
  mLineno : Nat
deriving DecidableEq, Repr

/-- The diagnostic printed by `get` on an unrecognized character
(line 144): `"line " << mLineno << ": error: Unrecognized character in file."`. -/
def lexErrorMessage (lineno : Nat) : String :=
  "line " ++ toString lineno ++ ": error: Unrecognized character in file."

/-- Result of one `LirTokenStream::get` call.  `eof` and `lexError` both
model `get` returning `false`; `lexError` additionally records the
diagnostic printed on `cerr` (line 144).  The caller observes only the
boolean, so `eof` and `lexError` are indistinguishable to it. -/
inductive GetResult where
  | eof
  | lexError (diag : String)
  | tok (t : LirToken) (st : TokState)
deriving DecidableEq, Repr

/-- `LirTokenStream::get` (lines 111-150).  One token is produced from the
current line: refill from the input when `mLine` is empty (appending
`'\n'`, line 115), strip horizontal whitespace (line 118), then match in
priority order `->`, an identifier-like run, single punctuation, `;` or
newline; otherwise print a diagnostic and return false (line 144). -/
def get (st : TokState) : GetResult :=
  let refill : Option TokState :=
    if st.mLine.isEmpty then
      match st.lines with
      | [] => none
      | l :: ls => some ⟨ls, l ++ ['\n'], st.mLineno + 1⟩
    else some st
  match refill with
  | none => .eof
  | some st1 =>
    let line := st1.mLine.dropWhile isHorizWS
    let e := (line.takeWhile isIdentChar).length
    if ['-', '>'].isPrefixOf line then
      .tok ⟨.PUNCT, ['-', '>'], st1.mLineno⟩ ⟨st1.lines, line.drop 2, st1.mLineno⟩
    else if 0 < e then
      let s := line.take e
      .tok ⟨classifyRun s, s, st1.mLineno⟩ ⟨st1.lines, line.drop e, st1.mLineno⟩
    else
      match line with
      | [] => .lexError (lexErrorMessage st1.mLineno)
      | c :: rest =>
        if punctChars.contains c then
          .tok ⟨.PUNCT, [c], st1.mLineno⟩ ⟨st1.lines, rest, st1.mLineno⟩
        else if c = ';' ∨ c = '\n' then
          .tok ⟨.NEWLINE, [], st1.mLineno⟩ ⟨st1.lines, [], st1.mLineno⟩
        else
          .lexError (lexErrorMessage st1.mLineno)

/-- What `FragmentAssembler::assembleFragment` does when `in.get(token)`
returns false (lines 972-976): in an explicitly begun fragment this is
fatal (`bad`, which prints and calls `exit(1)`); in the implicit `main`
fragment the loop simply breaks and the fragment is finished. -/
inductive FragStep where
  | fatalExit (msg : String)
  | finishFragment
deriving DecidableEq, Repr

/-- Lines 972-976 of `assembleFragment`:
`if (!in.get(token)) { if (!implicitBegin) bad("unexpected end of file in fragment mFragName"); break; }`. -/
def onGetFailure (implicitBegin : Bool) (fragName : String) : FragStep :=
  if !implicitBegin then
    .fatalExit ("unexpected end of file in fragment \x27" ++ fragName ++ "\x27")
  else
    .finishFragment

/-! ## Writer pipeline construction
(`FragmentAssembler::FragmentAssembler`, part_000 lines 543-590) -/

/-- The sinks the fragment-assembler constructor may chain.
`validateStart` is `mValidateWriter1` ("start of writer pipeline"),
`validateEnd` is `mValidateWriter2` ("end of writer pipeline"). -/
inductive SinkKind where
  | validateStart
  | exprFilter
  | softFloatFilter
  | cseFilter
  | verboseWriter
  | validateEnd
  | bufWriter
deriving DecidableEq, Repr

/-- The writer chain built by the constructor (lines 554-582), listed from
top (the `mLir` the parser calls) to bottom (`mBufWriter`).  Each
`new XWriter(mLir, ...)` wraps the chain built so far, so writers
constructed later sit closer to the client.  Construction order in the
code: `LirBufWriter`; then `ValidateWriter` 2 when `DEBUG && optimize`;
then `VerboseWriter` when `DEBUG && mParent.mVerbose`; then `CseFilter`
when `optimize`; then `SoftFloatFilter` when
`NJ_SOFTFLOAT_SUPPORTED && mParent.mConfig.soft_float` (here one flag
`softFloat`); then `ExprFilter` when `optimize`; then `ValidateWriter` 1
when `DEBUG`. -/
def buildWriterPipeline (debugBuild verbose optimize softFloat : Bool) : List SinkKind :=
  let chain := [SinkKind.bufWriter]
  let chain := if debugBuild && optimize then SinkKind.validateEnd :: chain else chain
  let chain := if debugBuild && verbose then SinkKind.verboseWriter :: chain else chain
  let chain := if optimize then SinkKind.cseFilter :: chain else chain
  let chain := if softFloat then SinkKind.softFloatFilter :: chain else chain
  let chain := if optimize then SinkKind.exprFilter :: chain else chain
  if debugBuild then SinkKind.validateStart :: chain else chain

/-! ## Return-type classification (`endFragment`, part_000 lines 834-912) -/

/-- `enum ReturnType` (lines 66-75): `RT_INT = 1, RT_QUAD = 2,
RT_DOUBLE = 4, RT_FLOAT = 8, RT_FLOAT4 = 16, RT_GUARD = 32`
(`RT_QUAD` exists on `NANOJIT_64BIT` builds, which we model). -/
inductive ReturnType where
  | RT_INT
  | RT_QUAD
  | RT_DOUBLE
  | RT_FLOAT
  | RT_FLOAT4
  | RT_GUARD
deriving DecidableEq, Repr

/-- The numeric bit of each `ReturnType` enumerator. -/
def ReturnType.bits : ReturnType → Nat
  | .RT_INT => 1
  | .RT_QUAD => 2
  | .RT_DOUBLE => 4
  | .RT_FLOAT => 8
  | .RT_FLOAT4 => 16
  | .RT_GUARD => 32

/-- Accumulation of `mReturnTypeBits`: each `assemble_ret rt` (line 761)
and each guard (lines 800, 815) performs `mReturnTypeBits |= rt`.
`rts` is the sequence of bits written, in program order. -/
def accumReturnBits (rts : List ReturnType) : Nat :=
  rts.foldl (fun m rt => m ||| rt.bits) 0

/-- The two non-fatal warnings `endFragment` can print (lines 840-855). -/
inductive FragWarning where
  | noReturnType
  | multipleReturnTypes
deriving DecidableEq, Repr

/-- The warning logic of `endFragment` (lines 840-855): mask `0` warns
"no return type"; a mask unequal to every single enumerator warns
"multiple return types"; otherwise no warning.  Both warnings go to
`cerr` and execution continues (no exit). -/
def returnTypeWarning (mask : Nat) : Option FragWarning :=
  if mask = 0 then some .noReturnType
  else if mask ≠ 1 ∧ mask ≠ 2 ∧ mask ≠ 4 ∧ mask ≠ 8 ∧ mask ≠ 16 ∧ mask ≠ 32 then
    some .multipleReturnTypes
  else none

/-- The `switch (mReturnTypeBits)` of `endFragment` (lines 879-909).  Each
single-bit case stores the entry pointer under the matching signature and
sets `f->mReturnType`; the `default` case (`NanoAssert(0)`, line 907)
matches every other mask and stores nothing (under `_DEBUG` the assertion
aborts; otherwise the registry fields are simply left unset). -/
def selectReturnType (mask : Nat) : Option ReturnType :=
  if mask = 1 then some .RT_INT
  else if mask = 2 then some .RT_QUAD
  else if mask = 4 then some .RT_DOUBLE
  else if mask = 8 then some .RT_FLOAT
  else if mask = 16 then some .RT_FLOAT4
  else if mask = 32 then some .RT_GUARD
  else none

/-! ## Fragment registry (`Fragments`, `LirasmFragment`, lines 172-189;
updated at lines 552, 876-911) -/

/-- Node identity: an `LIns*` is modelled by an id plus the result-type
tag the parser can query (`isD/isF/isF4/isQ`, lines 731-735). -/
inductive LTy where
  | V
  | I
  | Q
  | D
  | F
  | F4
  | P
deriving DecidableEq, Repr

/-- An `LIns*` value. -/
structure Node where
  id : Nat
  ty : LTy
deriving DecidableEq, Repr

/-- `class LirasmFragment` (lines 172-187): the entry pointer stored
through the union member for the classified return type, the
classification itself, the `Fragment*`, and the fragment's `mLabels`
map.  `entry` is `none` while the `switch` of `endFragment` has not
stored anything (a fresh map entry is default-constructed, and the
`default` case stores nothing). -/
structure LirasmFragment where
  fragptr : Nat
  entry : Option (ReturnType × Nat)
  mLabels : List (String × Node)
deriving DecidableEq, Repr

/-- A default-constructed `LirasmFragment`, as produced by
`std::map::operator[]` on a missing key. -/
def LirasmFragment.empty : LirasmFragment := ⟨0, none, []⟩

/-- `typedef map<string, LirasmFragment> Fragments` (line 189), as an
association list keyed by fragment name. -/
def Fragments := List (String × LirasmFragment)

/-- `std::map::find` on the fragment registry. -/
def fragFind (m : Fragments) (k : String) : Option LirasmFragment :=
  match m with
  | [] => none
  | (k1, v) :: rest => if k1 = k then some v else fragFind rest k

/-- `mFragments[k]` followed by a field assignment: `operator[]`
default-constructs a missing entry, then `f` mutates it in place. -/
def fragUpdate (m : Fragments) (k : String) (f : LirasmFragment → LirasmFragment) : Fragments :=
  match m with
  | [] => [(k, f LirasmFragment.empty)]
  | (k1, v) :: rest => if k1 = k then (k1, f v) :: rest else (k1, v) :: fragUpdate rest k f

/-- Line 552 of the `FragmentAssembler` constructor:
`mParent.mFragments[mFragName].fragptr = mFragment;`.  No check for a
pre-existing entry of the same name is made. -/
def registerFragptr (name : String) (fragptr : Nat) (m : Fragments) : Fragments :=
  fragUpdate m name (fun r => { r with fragptr := fragptr })

/-- The registry effect of `endFragment` (lines 876-911): the `switch`
stores the code pointer and return type when the mask matches a single
enumerator (nothing otherwise), then
`mParent.mFragments[mFragName].mLabels = mLabels` (line 911). -/
def endFragmentUpdate (name : String) (mask : Nat) (code : Nat)
    (labels : List (String × Node)) (m : Fragments) : Fragments :=
  let m1 :=
    match selectReturnType mask with
    | some rt => fragUpdate m name (fun r => { r with entry := some (rt, code) })
    | none => m
  fragUpdate m1 name (fun r => { r with mLabels := labels })

/-- The complete registry effect of assembling one fragment: the
constructor stores `fragptr` (line 552), and `endFragment` stores the
entry and labels (lines 876-911).  Neither step signals an error on a
name already present. -/
def assembleFragmentRegistry (name : String) (fragptr : Nat) (mask : Nat)
    (code : Nat) (labels : List (String × Node)) (m : Fragments) : Fragments :=
  endFragmentUpdate name mask code labels (registerFragptr name fragptr m)

/-! ## Labels, value bindings and jump resolution
(part_000 lines 618-662, 820-832, 927-962) -/

/-- `std::map<string, LIns*>::find` on a label map (`mLabels` or
`mJumpLabels`). -/
def labelFind (m : List (String × Node)) (k : String) : Option Node :=
  match m with
  | [] => none
  | (k1, v) :: rest => if k1 = k then some v else labelFind rest k

/-- `FragmentAssembler::bad` (lines 604-609): prints
`"line " << mLineno << ": " << msg` and calls `exit(1)`.  Fatal paths are
modelled as `Except.error msg`. -/
def badMsg (msg : String) : Except String α := .error msg

/-- `FragmentAssembler::need` (lines 618-625): fatal unless the statement
has exactly `n` operand tokens. -/
def need (n : Nat) (mTokens : List String) : Except String Unit :=
  if mTokens.length ≠ n then
    badMsg ("need " ++ toString n ++ " tokens, have " ++ toString mTokens.length)
  else .ok ()

/-- `FragmentAssembler::ref` (lines 627-633): resolves an operand name in
`mLabels`; unknown names are fatal. -/
def ref (mLabels : List (String × Node)) (lab : String) : Except String Node :=
  match labelFind mLabels lab with
  | none => badMsg ("unknown label \x27" ++ lab ++ "\x27")
  | some n => .ok n

/-- A branch instruction as produced by `insBranch`/`insBranchJov` with a
`NULL` target (lines 649, 829); `target` is set once by
`resolve_jumps` (line 952). -/
structure BranchIns where
  id : Nat
  cond : Option Node
  target : Option Node
deriving DecidableEq, Repr

/-- `FragmentAssembler::assemble_jump` (lines 635-652): `j target` takes
one token, `jt cond target` / `jf cond target` take two; the condition is
resolved through `ref`, the branch is emitted with a `NULL` target, and
`(name, ins)` is pushed onto the `mJumps` worklist.  Returns the emitted
branch (with fresh id `nid`) and the worklist pair. -/
def assemble_jump (isCond : Bool) (mTokens : List String)
    (mLabels : List (String × Node)) (nid : Nat) :
    Except String (BranchIns × (String × Nat)) :=
  if isCond then
    match need 2 mTokens with
    | .error e => .error e
    | .ok _ =>
      match ref mLabels (mTokens.getD 0 "") with
      | .error e => .error e
      | .ok condition => .ok (⟨nid, some condition, none⟩, (mTokens.getD 1 "", nid))
  else
    match need 1 mTokens with
    | .error e => .error e
    | .ok _ => .ok (⟨nid, none, none⟩, (mTokens.getD 0 "", nid))

/-- `FragmentAssembler::assemble_jump_jov` (lines 820-832): three tokens,
the first two resolved through `ref`, the third the target name; the
branch is emitted with a `NULL` target and pushed onto `mJumps`. -/
def assemble_jump_jov (mTokens : List String) (mLabels : List (String × Node))
    (nid : Nat) : Except String (BranchIns × (String × Nat)) :=
  match need 3 mTokens with
  | .error e => .error e
  | .ok _ =>
    match ref mLabels (mTokens.getD 0 "") with
    | .error e => .error e
    | .ok _a =>
      match ref mLabels (mTokens.getD 1 "") with
      | .error e => .error e
      | .ok _b => .ok (⟨nid, none, none⟩, (mTokens.getD 2 "", nid))

/-- `FragmentAssembler::resolve_jumps` (lines 939-954): for each
`(name, ins)` pair of `mJumps`, look `name` up in `mJumpLabels`; a missing
name is fatal, otherwise `ins->setTarget(target)`.  The result lists, per
worklist pair in order, the branch id and the label node its target is
set to. -/
def resolve_jumps (mJumps : List (String × Nat))
    (mJumpLabels : List (String × Node)) : Except String (List (Nat × Node)) :=
  match mJumps with
  | [] => .ok []
  | (name, ins) :: rest =>
    match labelFind mJumpLabels name with
    | none => badMsg ("No label exists for jump target \x27" ++ name ++ "\x27")
    | some target =>
      match resolve_jumps rest mJumpLabels with
      | .error e => .error e
      | .ok tl => .ok ((ins, target) :: tl)

/-- `FragmentAssembler::add_jump_label` (lines 956-962): a name already
present in `mJumpLabels` is fatal
(`"Label '...' found at multiple locations."`); otherwise
`mJumpLabels[lab] = ins`. -/
def add_jump_label (lab : String) (ins : Node)
    (mJumpLabels : List (String × Node)) : Except String (List (String × Node)) :=
  if (labelFind mJumpLabels lab).isSome then
    badMsg ("Label \x27" ++ lab ++ "\x27 found at multiple locations.")
  else .ok ((lab, ins) :: mJumpLabels)

/-- `FragmentAssembler::extract_any_label` (lines 927-937): when the line
has more than two tokens and the second is exactly the one-character
delimiter, pop the leading name and the delimiter; a name already present
in `mLabels` is fatal (`"duplicate label"`).  Returns the extracted name
(if any) and the remaining tokens. -/
def extract_any_label (mTokens : List String) (lab_delim : Char)
    (mLabels : List (String × Node)) : Except String (Option String × List String) :=
  if 2 < mTokens.length ∧ (mTokens.getD 1 "").data = [lab_delim] then
    let lab := mTokens.getD 0 ""
    let rest := mTokens.drop 2
    if (labelFind mLabels lab).isSome then badMsg "duplicate label"
    else .ok (some lab, rest)
  else .ok (none, mTokens)

/-- Line 1304-1305 of `assembleFragment`:
`if (!lab.empty()) mLabels.insert(make_pair(lab, ins));` — the binding of
an `name =` statement's result node.  (`std::map::insert` does not
overwrite, but this point is only reached when `extract_any_label` found
`lab` absent.) -/
def bindLabel (lab : String) (ins : Node)
    (mLabels : List (String × Node)) : List (String × Node) :=
  if (labelFind mLabels lab).isSome then mLabels else (lab, ins) :: mLabels

/-! ## Immediate parsing (`immI`, part_000 lines 393-425) -/

/-- Value of a hexadecimal digit, if `c` is one. -/
def hexDigitVal (c : Char) : Option Nat :=
  if c.isDigit then some (c.toNat - '0'.toNat)
  else if 'a' ≤ c ∧ c ≤ 'f' then some (c.toNat - 'a'.toNat + 10)
  else if 'A' ≤ c ∧ c ≤ 'F' then some (c.toNat - 'A'.toNat + 10)
  else none

/-- The value of a nonempty all-hex-digit string, `none` otherwise. -/
def parseHexNat (cs : List Char) : Option Nat :=
  match cs with
  | [] => none
  | _ =>
    cs.foldl (fun acc c =>
      match acc, hexDigitVal c with
      | some a, some d => some (a * 16 + d)
      | _, _ => none) (some 0)

/-- The value of a nonempty all-decimal-digit string, `none` otherwise. -/
def parseDecNat (cs : List Char) : Option Nat :=
  match cs with
  | [] => none
  | _ =>
    cs.foldl (fun acc c =>
      if c.isDigit then (acc.map (fun a => a * 10 + (c.toNat - '0'.toNat))) else none)
      (some 0)

/-- `lexical_cast<int32_t>` (lines 393-402) applied to a token: the
stringstream accepts an optional sign followed by decimal digits and must
consume the whole string; anything else (including out-of-int32-range
values) fails, which in the program prints "bad lexical cast" and calls
`exit(1)`. -/
def lexCastInt32 (s : String) : Option Int :=
  let (sign, ds) : Int × List Char :=
    match s.data with
    | '-' :: rest => (-1, rest)
    | '+' :: rest => (1, rest)
    | rest => (1, rest)
  match parseDecNat ds with
  | none => none
  | some v =>
    let r : Int := sign * v
    if -(2 ^ 31) ≤ r ∧ r < 2 ^ 31 then some r else none

/-- Interpret an unsigned 32-bit value as the signed `int32_t` with the
same bit pattern. -/
def toInt32 (v : Nat) : Int :=
  if v % 2 ^ 32 < 2 ^ 31 then (v % 2 ^ 32 : Nat) else (v % 2 ^ 32 : Nat) - 2 ^ 32

/-- `immI` (lines 415-425): a token starting `0x`/`0X` whose remainder
parses completely as hexadecimal yields that value (as `int32_t`);
otherwise `lexical_cast<int32_t>`, whose failure is fatal. -/
def immI (s : String) : Except String Int :=
  if (['0', 'x'].isPrefixOf s.data ∨ ['0', 'X'].isPrefixOf s.data)
      ∧ (parseHexNat (s.data.drop 2)).isSome then
    .ok (toInt32 ((parseHexNat (s.data.drop 2)).getD 0))
  else
    match lexCastInt32 s with
    | some v => .ok v
    | none => badMsg ("bad lexical cast from " ++ s)

/-! ## Loads (`assemble_load`, part_000 lines 654-670) -/

/-- The gate of `assemble_load` on its second operand token (lines
661-663): `mTokens[1].find("0x") == 0 || mTokens[1].find("0X") == 0 ||
mTokens[1].find_first_of("0123456789") == 0` — the token begins with
`0x`, `0X`, or a decimal digit. -/
def loadOffsetIsImm (s : String) : Bool :=
  ['0', 'x'].isPrefixOf s.data || ['0', 'X'].isPrefixOf s.data ||
    (match s.data with
     | c :: _ => c.isDigit
     | [] => false)

/-- A load instruction as produced by `insLoad` (line 664): base operand
and immediate displacement (the access set is always `ACCSET_OTHER`). -/
structure LoadIns where
  base : Node
  offset : Int
deriving DecidableEq, Repr

/-- `FragmentAssembler::assemble_load` (lines 654-670): exactly two
tokens; when the second begins with `0x`, `0X` or a digit, emit
`insLoad(op, ref(tokens[0]), immI(tokens[1]), ACCSET_OTHER)`; any other
second token is fatal: `bad("immediate offset required for load")`. -/
def assemble_load (mTokens : List String)
    (mLabels : List (String × Node)) : Except String LoadIns :=
  match need 2 mTokens with
  | .error e => .error e
  | .ok _ =>
    if loadOffsetIsImm (mTokens.getD 1 "") then
      match ref mLabels (mTokens.getD 0 "") with
      | .error e => .error e
      | .ok base =>
        match immI (mTokens.getD 1 "") with
        | .error e => .error e
        | .ok off => .ok ⟨base, off⟩
    else
      badMsg "immediate offset required for load"

/-! ## Calls (`assemble_call`, part_000 lines 672-755; builtin table,
lines 363-391; `Lirasm::lookupFunction`, lines 2477-2523) -/

/-- `MAXARGS = 8` (nanojit.h line 76). -/
def MAXARGS : Nat := 8

/-- `enum AbiKind` values accepted by the parser (lines 693-703). -/
inductive AbiKind where
  | ABI_FASTCALL
  | ABI_THISCALL
  | ABI_STDCALL
  | ABI_CDECL
deriving DecidableEq, Repr

/-- The ABI-token dispatch of `assemble_call` (lines 693-703); an unknown
token is fatal. -/
def parseAbi (abi : String) : Option AbiKind :=
  if abi = "fastcall" then some .ABI_FASTCALL
  else if abi = "stdcall" then some .ABI_STDCALL
  else if abi = "thiscall" then some .ABI_THISCALL
  else if abi = "cdecl" then some .ABI_CDECL
  else none

/-- `enum ArgType` as used by the parser (`ARGTYPE_*`). -/
inductive ArgType where
  | ARGTYPE_V
  | ARGTYPE_I
  | ARGTYPE_Q
  | ARGTYPE_D
  | ARGTYPE_F
  | ARGTYPE_F4
  | ARGTYPE_P
deriving DecidableEq, Repr

/-- One entry of the static `functions[]` table (lines 363-391): name,
return type and argument signature.  Every entry is built by the `CI`
macro with `nanojit::ABI_CDECL` (line 84). -/
structure BuiltinFn where
  name : String
  retType : ArgType
  argTypes : List ArgType
deriving DecidableEq, Repr

/-- The `functions[]` table (lines 363-391), with each signature read off
its `CallInfo::typeSigN(ret, args...)` initializer. -/
def functions : List BuiltinFn :=
  [⟨"puts", .ARGTYPE_I, [.ARGTYPE_P]⟩,
   ⟨"sin", .ARGTYPE_D, [.ARGTYPE_D]⟩,
   ⟨"malloc", .ARGTYPE_P, [.ARGTYPE_P]⟩,
   ⟨"free", .ARGTYPE_V, [.ARGTYPE_P]⟩,
   ⟨"calld1", .ARGTYPE_D, [.ARGTYPE_D, .ARGTYPE_D, .ARGTYPE_D, .ARGTYPE_D,
                           .ARGTYPE_D, .ARGTYPE_D, .ARGTYPE_D, .ARGTYPE_D]⟩,
   ⟨"callf1", .ARGTYPE_F, [.ARGTYPE_F, .ARGTYPE_F, .ARGTYPE_F, .ARGTYPE_F,
                           .ARGTYPE_F, .ARGTYPE_F, .ARGTYPE_F, .ARGTYPE_F]⟩,
   ⟨"callid1", .ARGTYPE_D, [.ARGTYPE_I, .ARGTYPE_D, .ARGTYPE_D,
                            .ARGTYPE_I, .ARGTYPE_I, .ARGTYPE_D]⟩,
   ⟨"callif1", .ARGTYPE_F, [.ARGTYPE_I, .ARGTYPE_F, .ARGTYPE_F,
                            .ARGTYPE_I, .ARGTYPE_I, .ARGTYPE_F]⟩,
   ⟨"callif4_1", .ARGTYPE_F4, [.ARGTYPE_I, .ARGTYPE_F4, .ARGTYPE_F4,
                               .ARGTYPE_I, .ARGTYPE_I, .ARGTYPE_F4]⟩,
   ⟨"callid2", .ARGTYPE_D, [.ARGTYPE_I, .ARGTYPE_I, .ARGTYPE_I, .ARGTYPE_D]⟩,
   ⟨"callif2", .ARGTYPE_F, [.ARGTYPE_I, .ARGTYPE_I, .ARGTYPE_I, .ARGTYPE_F]⟩,
   ⟨"callif4_2", .ARGTYPE_F4, [.ARGTYPE_I, .ARGTYPE_I, .ARGTYPE_I, .ARGTYPE_F4]⟩,
   ⟨"callid3", .ARGTYPE_D, [.ARGTYPE_I, .ARGTYPE_I, .ARGTYPE_D,
                            .ARGTYPE_I, .ARGTYPE_D, .ARGTYPE_D]⟩,
   ⟨"callif3", .ARGTYPE_F, [.ARGTYPE_I, .ARGTYPE_I, .ARGTYPE_F,
                            .ARGTYPE_I, .ARGTYPE_F, .ARGTYPE_F]⟩,
   ⟨"callif4_3", .ARGTYPE_F4, [.ARGTYPE_I, .ARGTYPE_I, .ARGTYPE_F4,
                               .ARGTYPE_I, .ARGTYPE_F4, .ARGTYPE_F4]⟩,
   ⟨"callf4_sqrt", .ARGTYPE_F4, [.ARGTYPE_F4]⟩,
   ⟨"callf4_mt", .ARGTYPE_F4, [.ARGTYPE_F, .ARGTYPE_I, .ARGTYPE_D, .ARGTYPE_F4,
                               .ARGTYPE_I, .ARGTYPE_D, .ARGTYPE_F, .ARGTYPE_F4]⟩,
   ⟨"printi", .ARGTYPE_V, [.ARGTYPE_I]⟩]

/-- `Lirasm::lookupFunction` (lines 2477-2523): a name in the
`functions[]` table is a builtin (returns true, with the builtin
`CallInfo`); otherwise a previously assembled fragment of that name is a
user-defined function (returns false); otherwise
`bad("invalid function reference ...")`, which exits. -/
def lookupFunction (name : String) (mFragments : Fragments) : Except String Bool :=
  match functions.find? (fun f => f.name = name) with
  | some _ => .ok true
  | none =>
    if (fragFind mFragments name).isSome then .ok false
    else badMsg ("invalid function reference " ++ name)

/-- The per-argument refs of the fill loop of `assemble_call`
(`args[i] = ref(mTokens[mTokens.size() - (i+1)])`, lines 716-718 and
728-730): slot `i` refs the `(i+1)`-th token from the end, i.e. the
operand vector refs the argument tokens in reverse; `refAll` performs the
refs in that order. -/
def refAll (mLabels : List (String × Node)) : List String → Except String (List Node)
  | [] => .ok []
  | t :: ts =>
    match ref mLabels t with
    | .error e => .error e
    | .ok n =>
      match refAll mLabels ts with
      | .error e => .error e
      | .ok ns => .ok (n :: ns)

/-- The argument-type inference of the user-defined branch
(lines 731-737): `isD → ARGTYPE_D`, `isF → ARGTYPE_F`,
`isF4 → ARGTYPE_F4`, `isQ → ARGTYPE_Q` (64-bit build), else
`ARGTYPE_I`. -/
def argTypeOfNode (n : Node) : ArgType :=
  if n.ty = .D then .ARGTYPE_D
  else if n.ty = .F then .ARGTYPE_F
  else if n.ty = .F4 then .ARGTYPE_F4
  else if n.ty = .Q then .ARGTYPE_Q
  else .ARGTYPE_I

/-- The call opcodes dispatched to `assemble_call`
(lines 1254-1261). -/
inductive CallOpcode where
  | callv
  | calli
  | hcalli
  | callq
  | calld
  | callf
  | callf4
deriving DecidableEq, Repr

/-- Return-type selection of the user-defined branch (lines 740-750):
default `ARGTYPE_P`, overridden per call opcode; `hcalli` falls through
to `nyi("callh")`, which exits. -/
def callRetType (op : CallOpcode) : Except String ArgType :=
  match op with
  | .callv => .ok .ARGTYPE_V
  | .calli => .ok .ARGTYPE_I
  | .callq => .ok .ARGTYPE_Q
  | .calld => .ok .ARGTYPE_D
  | .callf => .ok .ARGTYPE_F
  | .callf4 => .ok .ARGTYPE_F4
  | .hcalli => badMsg "\x27callh\x27 not yet implemented, sorry"

/-- The call node produced by `mLir->insCall(ci, args)` (line 754):
callee name, ABI, whether the `CallInfo` came from the builtin table, the
signature recorded in the `CallInfo`, and the operand vector `args`
(slot order as filled, `args[0]` first). -/
structure CallIns where
  callee : String
  abi : AbiKind
  builtin : Bool
  retType : ArgType
  argTypes : List ArgType
  args : List Node
deriving DecidableEq, Repr

/-- `FragmentAssembler::assemble_call` (lines 672-755).  `mTokens` holds
the tokens after the opcode: function, ABI, then the argument names.  At
least two tokens are required; the ABI token must parse; more than
`MAXARGS` argument tokens is fatal.  A builtin must match its table ABI
(always `ABI_CDECL`) and arity; its operand vector is filled in reverse
lexical order.  A user-defined call fills the operand vector the same
way and infers the signature from the operand nodes and the opcode. -/
def assemble_call (mOpcode : CallOpcode) (op : String) (mTokens : List String)
    (mLabels : List (String × Node)) (mFragments : Fragments) :
    Except String CallIns :=
  if mTokens.length < 2 then
    badMsg ("need at least address and ABI code for " ++ op)
  else
    let func := mTokens.getD 0 ""
    let abi := mTokens.getD 1 ""
    let argToks := mTokens.drop 2
    match parseAbi abi with
    | none => badMsg ("call abi name \x27" ++ abi ++ "\x27")
    | some _abi =>
      if argToks.length > MAXARGS then badMsg ("too many args to " ++ op)
      else
        match lookupFunction func mFragments with
        | .error e => .error e
        | .ok true =>
          let fn := (functions.find? (fun f => f.name = func)).getD ⟨"", .ARGTYPE_V, []⟩
          if _abi ≠ .ABI_CDECL then
            badMsg ("invalid calling convention for " ++ func)
          else
            match refAll mLabels argToks.reverse with
            | .error e => .error e
            | .ok args =>
              if argToks.length ≠ fn.argTypes.length then
                badMsg ("wrong number of arguments for " ++ func)
              else
                .ok ⟨func, _abi, true, fn.retType, fn.argTypes, args⟩
        | .ok false =>
          match refAll mLabels argToks.reverse with
          | .error e => .error e
          | .ok args =>
            match callRetType mOpcode with
            | .error e => .error e
            | .ok retType =>
              .ok ⟨func, _abi, false, retType, args.map argTypeOfNode, args⟩

/-! ## Command line (`processCmdLine`, part_000 lines 2633-2817; `main`,
lines 2874-2900).  We model an x86-64 build (`NANOJIT_X64`), which has no
architecture-specific flags. -/

/-- `struct CmdLineOptions` (lines 2640-2649) with its initialization in
`processCmdLine` (lines 2676-2681). -/
structure CmdLineOptions where
  progname : String
  verbose : Bool
  execute : Bool
  optimize : Bool
  random : Int
  stkskip : Int
  filename : String
deriving DecidableEq, Repr

/-- A process exit performed during command-line processing: the exit
code and the text printed (`usageAndQuit` prints the usage text and exits
0; `errMsgAndQuit` prints `progname ++ ": " ++ msg` on `cerr` and exits
1; the `--show-*` flags print one line and exit 0). -/
structure ExitAction where
  code : Nat
  msg : String
deriving DecidableEq, Repr

/-- `errMsgAndQuit` (lines 2633-2638): exit code 1. -/
def errMsgAndQuit (msg : String) : ExitAction := ⟨1, msg⟩

/-- `usageAndQuit` (lines 2601-2631): prints the usage text, exit code 0
(the full text is abbreviated to its first line here). -/
def usageAndQuit (progname : String) : ExitAction :=
  ⟨0, "usage: " ++ progname ++ " [options] [filename]"⟩

/-- `strtol(s, &endptr, 10)`: skip C whitespace, an optional sign, then
decimal digits; returns the value and the remainder at `endptr`.  When no
digits are consumed, the value is 0 and `endptr` is the start of the
string (the whole string is returned).  Overflow is not modelled (the
code comments "We don't bother checking for overflow"). -/
def strtol10 (s : List Char) : Int × List Char :=
  let t := s.dropWhile (fun c => c = ' ' ∨ c = '\t' ∨ c = '\n' ∨ c = '\x0b' ∨ c = '\x0c' ∨ c = '\r')
  let signed : Int × List Char :=
    match t with
    | '-' :: r => (-1, r)
    | '+' :: r => (1, r)
    | _ => (1, t)
  let digits := signed.2.takeWhile Char.isDigit
  if digits.isEmpty then (0, s)
  else (signed.1 * (parseDecNat digits).getD 0, signed.2.drop digits.length)

/-- One step of `parseOptionalInt` (lines 2652-2671), operating on the
argument following the flag (`none` when the flag is the last argument,
i.e. `*i == argc - 1`).  Returns `none` for the fatal case (`res <= 0`
with the whole next argument numeric), otherwise the value and whether
the next argument was consumed (`(*i)++`). -/
def parseOptionalIntStep (next : Option String) (defaultValue : Int) :
    Option (Int × Bool) :=
  match next with
  | none => some (defaultValue, false)
  | some arg =>
    let p := strtol10 arg.data
    if p.2 = [] then
      if p.1 ≤ 0 then none else some (p.1, true)
    else some (defaultValue, false)

/-- The flag loop of `processCmdLine` (lines 2691-2795) on the arguments
after `argv[0]`, for an x86-64 build: `-h`/`--help` exits 0 with the
usage text; `-v`/`--verbose`, `--execute`, `--optimize`,
`--no-optimize` set flags; `--random` and `--stkskip` use
`parseOptionalInt` with default 100 and are fatal on a non-positive
numeric argument; `--show-arch`, `--show-word-size`,
`--show-endianness` print one line and exit 0; an argument not starting
with `-` is the filename (a second one is fatal); anything else is
`bad option`. -/
def processArgsFuel : Nat → List String → CmdLineOptions → Except ExitAction CmdLineOptions
  | 0, _, opts => .ok opts
  | _ + 1, [], opts => .ok opts
  | fuel + 1, arg :: rest, opts =>
    if arg = "-h" ∨ arg = "--help" then .error (usageAndQuit opts.progname)
    else if arg = "-v" ∨ arg = "--verbose" then
      processArgsFuel fuel rest { opts with verbose := true }
    else if arg = "--execute" then processArgsFuel fuel rest { opts with execute := true }
    else if arg = "--optimize" then processArgsFuel fuel rest { opts with optimize := true }
    else if arg = "--no-optimize" then processArgsFuel fuel rest { opts with optimize := false }
    else if arg = "--random" then
      match parseOptionalIntStep rest.head? 100 with
      | none => .error (errMsgAndQuit "--random argument must be greater than zero")
      | some (v, true) => processArgsFuel fuel rest.tail { opts with random := v }
      | some (v, false) => processArgsFuel fuel rest { opts with random := v }
    else if arg = "--stkskip" then
      match parseOptionalIntStep rest.head? 100 with
      | none => .error (errMsgAndQuit "--stkskip argument must be greater than zero")
      | some (v, true) => processArgsFuel fuel rest.tail { opts with stkskip := v }
      | some (v, false) => processArgsFuel fuel rest { opts with stkskip := v }
    else if arg = "--show-arch" then .error ⟨0, "X64"⟩
    else if arg = "--show-word-size" then .error ⟨0, "64"⟩
    else if arg = "--show-endianness" then .error ⟨0, "little-endian"⟩
    else if arg.data.headD (Char.ofNat 0) ≠ '-' then
      if opts.filename = "" then processArgsFuel fuel rest { opts with filename := arg }
      else .error (errMsgAndQuit "you can only specify one filename")
    else .error (errMsgAndQuit ("bad option: " ++ arg))

/-- The flag loop over the whole argument list.  The fuel argument of
`processArgsFuel` only bounds the iteration count; one unit is spent per
loop iteration and each iteration removes at least one list element, so
`args.length` units make the fuel inexhaustible and the two base cases
coincide on the empty list. -/
def processArgsLoop (args : List String) (opts : CmdLineOptions) :
    Except ExitAction CmdLineOptions :=
  processArgsFuel args.length args opts

/-- The option record as initialized at lines 2676-2681, with
`opts.progname = argv[0]`. -/
def initialOpts (argv : List String) : CmdLineOptions :=
  ⟨argv.headD "", false, false, false, 0, 0, ""⟩

/-- The diagnostic of the either-filename-or-random check
(lines 2797-2799). -/
def eitherFilenameOrRandomMsg : String :=
  "you must specify either a filename or --random (but not both)"

/-- `processCmdLine` (lines 2673-2817): run the flag loop over
`argv[1..]`, then the final check (lines 2797-2799):
`(!opts.random && opts.filename.empty()) ||
 (opts.random && !opts.filename.empty())` is fatal (exit 1). -/
def processCmdLine (argv : List String) : Except ExitAction CmdLineOptions :=
  match processArgsLoop argv.tail (initialOpts argv) with
  | .error e => .error e
  | .ok opts =>
    if (opts.random = 0 ∧ opts.filename = "") ∨ (opts.random ≠ 0 ∧ opts.filename ≠ "") then
      .error (errMsgAndQuit eitherFilenameOrRandomMsg)
    else .ok opts

/-- The start of `main` (lines 2874-2888): `processCmdLine` runs before
the `Lirasm` object exists; only when it returns does the program
construct `Lirasm` and begin assembling (`assembleRandom` or
`assemble`). -/
inductive ProgramPhase where
  | exited (e : ExitAction)
  | assembling (opts : CmdLineOptions)
deriving DecidableEq, Repr

/-- Whether `main` reaches the assembly stage, and with which options. -/
def mainStart (argv : List String) : ProgramPhase :=
  match processCmdLine argv with
  | .error e => .exited e
  | .ok opts => .assembling opts

/-- Whether an `Except` computation succeeded (no `exit(1)` path
taken). -/
def exceptOk (e : Except ε α) : Bool :=
  match e with
  | .ok _ => true
  | .error _ => false

/-! ## Helper lemmas -/

/-- `fragUpdate` followed by `fragFind` on the same key yields the
modified record (the record previously present, or a default-constructed
one). -/
theorem fragFind_fragUpdate (m : Fragments) (k : String)
    (f : LirasmFragment → LirasmFragment) :
    fragFind (fragUpdate m k f) k =
      some (f ((fragFind m k).getD LirasmFragment.empty)) := by
  induction m with
  | nil => simp [fragFind, fragUpdate]
  | cons hd tl ih =>
    obtain ⟨k1, v⟩ := hd
    by_cases hk : k1 = k
    · simp [fragFind, fragUpdate, hk]
    · simp [fragFind, fragUpdate, hk, ih]

/-- Specification of `refAll`: on success the result has one node per
token, and the `i`-th node is the `ref` of the `i`-th token. -/
theorem refAll_ok_spec (mLabels : List (String × Node)) (ts : List String)
    (ns : List Node) (h : refAll mLabels ts = .ok ns) :
    ns.length = ts.length ∧
      ∀ i, i < ts.length →
        ref mLabels (ts.getD i "") = .ok (ns.getD i ⟨0, .V⟩) := by
  induction ts generalizing ns with
  | nil =>
    simp only [refAll, Except.ok.injEq] at h
    subst h
    simp
  | cons t ts ih =>
    simp only [refAll] at h
    cases hr : ref mLabels t with
    | error e => simp [hr] at h
    | ok n =>
      cases htl : refAll mLabels ts with
      | error e => simp [hr, htl] at h
      | ok ms =>
        simp only [hr, htl, Except.ok.injEq] at h
        subst h
        obtain ⟨hlen, hspec⟩ := ih ms htl
        refine ⟨by simp [hlen], ?_⟩
        intro i hi
        cases i with
        | zero => simpa using hr
        | succ j =>
          simp only [List.getD_cons_succ]
          exact hspec j (by simpa using hi)

/-- `getD` of a reversed list reads the mirrored index. -/
theorem getD_reverse {α : Type} (l : List α) (i : Nat) (h : i < l.length) (d : α) :
    l.reverse.getD i d = l.getD (l.length - 1 - i) d := by
  have h1 : i < l.reverse.length := by simpa using h
  have h2 : l.length - 1 - i < l.length := by omega
  rw [List.getD_eq_getElem l.reverse d h1, List.getD_eq_getElem l d h2]
  simp [List.getElem_reverse]

/-! ## Claim C1 — writer pipeline order -/

/-- C1, counterexample: in a debug, verbose, optimized (and soft-float)
build, the pipeline from top to bottom is NOT
validate, verbose printer, CSE filter, soft-float filter, expression
folder, second validate, buffer writer, as the claim states. -/
theorem C1_counterexample :
    buildWriterPipeline true true true true ≠
      [SinkKind.validateStart, SinkKind.verboseWriter, SinkKind.cseFilter,
       SinkKind.softFloatFilter, SinkKind.exprFilter, SinkKind.validateEnd,
       SinkKind.bufWriter] := by
  decide

/-- C1, amended: in a debug, verbose, optimized, soft-float build the
writer pipeline seen by the parser runs, from top to bottom, in the
order validate, expression folder, soft-float filter, CSE filter,
verbose printer, second validate, buffer writer; in particular the
verbose printer sits BELOW the CSE filter and the CSE filter sits BELOW
the expression folder. -/
theorem C1_pipeline_order :
    buildWriterPipeline true true true true =
      [SinkKind.validateStart, SinkKind.exprFilter, SinkKind.softFloatFilter,
       SinkKind.cseFilter, SinkKind.verboseWriter, SinkKind.validateEnd,
       SinkKind.bufWriter]
    ∧ (buildWriterPipeline true true true true).indexOf SinkKind.cseFilter <
        (buildWriterPipeline true true true true).indexOf SinkKind.verboseWriter
    ∧ (buildWriterPipeline true true true true).indexOf SinkKind.exprFilter <
        (buildWriterPipeline true true true true).indexOf SinkKind.cseFilter := by
  refine ⟨by decide, by decide, by decide⟩

/-! ## Claim C7 — token classification of identifier-like runs -/

/-- C7: an identifier-like run is classified `NUMBER` exactly when it has
length at least 2 and starts with `0x` or `0X`, or its first character is
a decimal digit, or it starts with `.` immediately followed by a digit;
every other run is classified `NAME`. -/
theorem C7_run_classification (s : List Char) :
    classifyRun s =
      if (2 ≤ s.length ∧ (['0', 'x'] <+: s ∨ ['0', 'X'] <+: s))
          ∨ (s.headD ' ').isDigit = true
          ∨ (2 ≤ s.length ∧ s.headD ' ' = '.' ∧ (s.getD 1 ' ').isDigit = true) then
        LirTokenType.NUMBER
      else LirTokenType.NAME := by
  match s with
  | [] => simp [classifyRun]
  | [a] =>
    have h11 : ¬ ((1:Nat) < 1) := by omega
    have h21 : ¬ ((2:Nat) ≤ 1) := by omega
    simp only [classifyRun, List.length_singleton, List.getD_cons_zero, List.headD_cons,
      h11, h21, false_and, and_false, false_or, or_false, if_false]
  | a :: b :: t =>
    have hlen : ((1:Nat) < (a :: b :: t).length) := by simp
    have hlen2 : ((2:Nat) ≤ (a :: b :: t).length) := by
      simp only [List.length_cons]
      omega
    have hpre : ∀ c d : Char, ([c, d] <+: a :: b :: t) ↔ (a = c ∧ b = d) := by
      intro c d
      constructor
      · intro hp
        obtain ⟨u, hu⟩ := hp
        cases hu
        exact ⟨rfl, rfl⟩
      · rintro ⟨rfl, rfl⟩
        exact ⟨t, rfl⟩
    simp only [classifyRun, List.getD_cons_zero, List.getD_cons_succ, List.headD_cons,
      hlen, hlen2, hpre, true_and]
    split_ifs <;> first | rfl | tauto

/-! ## Claim C2 — unrecognized character handling -/

/-- C2, counterexample: on the input line `@` read inside the implicit
`main` fragment, the tokenizer prints the line-numbered diagnostic but
`get` merely returns false; `assembleFragment` with `implicitBegin` true
then breaks out and finishes the fragment instead of terminating the
program with exit code 1. -/
theorem C2_counterexample :
    get ⟨[['@']], [], 0⟩ = .lexError (lexErrorMessage 1)
    ∧ onGetFailure true "main" = .finishFragment
    ∧ onGetFailure true "main" ≠
        .fatalExit (lexErrorMessage 1) := by
  refine ⟨by decide, by decide, by decide⟩

/-- C2, amended: on an unrecognized character (not horizontal
whitespace, not an identifier-run character — which rules out a leading
`->` too — not one of `:,=[]()`, and not `;` or a newline) the tokenizer
prints the line-numbered diagnostic and reports failure exactly as it
reports end of input; the program then terminates with exit code 1 only
when inside an explicit `.begin` fragment (with an
"unexpected end of file" message), while the implicit `main` fragment is
simply finished. -/
theorem C2_lex_error_behavior (st : TokState) (c : Char) (rest : List Char)
    (h1 : st.mLine ≠ [])
    (h2 : st.mLine.dropWhile isHorizWS = c :: rest)
    (h3 : isIdentChar c = false)
    (h4 : punctChars.contains c = false)
    (h5 : ¬ (c = ';' ∨ c = '\n')) :
    get st = .lexError (lexErrorMessage st.mLineno)
    ∧ (∀ name, onGetFailure false name =
        .fatalExit ("unexpected end of file in fragment \x27" ++ name ++ "\x27"))
    ∧ onGetFailure true "main" = .finishFragment := by
  refine ⟨?_, fun name => rfl, rfl⟩
  have hne : st.mLine.isEmpty = false := by
    simpa [List.isEmpty_iff] using h1
  have hc : c ≠ '-' := by
    intro hcm
    rw [hcm] at h3
    exact absurd h3 (by decide)
  have hpre : (['-', '>'].isPrefixOf (c :: rest)) = false := by
    cases hp : ['-', '>'].isPrefixOf (c :: rest) with
    | false => rfl
    | true =>
      have := List.isPrefixOf_iff_prefix.mp hp
      obtain ⟨u, hu⟩ := this
      cases hu
      exact absurd rfl hc
  have htk : (c :: rest).takeWhile isIdentChar = [] := by
    simp [List.takeWhile_cons, h3]
  simp only [get, hne, Bool.false_eq_true, if_false, h2, hpre, htk,
    List.length_nil, lt_irrefl, h4, h5]

/-- C2, amended, witness at a concrete tokenizer state (current line
`@\n`, line 3). -/
theorem C2_lex_error_witness :
    get ⟨[], ['@', '\n'], 3⟩ = .lexError (lexErrorMessage 3)
    ∧ (∀ name, onGetFailure false name =
        .fatalExit ("unexpected end of file in fragment \x27" ++ name ++ "\x27"))
    ∧ onGetFailure true "main" = .finishFragment :=
  C2_lex_error_behavior ⟨[], ['@', '\n'], 3⟩ '@' ['\n'] (by decide) (by decide)
    (by decide) (by decide) (by decide)

/-! ## Claim C3 — multiple return-type bits -/

/-- C3, counterexample: a fragment that wrote `RT_INT` and then
`RT_DOUBLE` gets the "multiple return types" warning, but `endFragment`
does not select the signature of the last-written bit (`RT_DOUBLE`): the
`switch` on the accumulated mask has no case for it and selects
nothing. -/
theorem C3_counterexample :
    returnTypeWarning (accumReturnBits [ReturnType.RT_INT, ReturnType.RT_DOUBLE]) =
      some FragWarning.multipleReturnTypes
    ∧ selectReturnType (accumReturnBits [ReturnType.RT_INT, ReturnType.RT_DOUBLE]) ≠
        some ReturnType.RT_DOUBLE
    ∧ selectReturnType (accumReturnBits [ReturnType.RT_INT, ReturnType.RT_DOUBLE]) =
        none := by
  refine ⟨by decide, by decide, by decide⟩

/-- C3, amended: when the accumulated return-type mask triggers the
"multiple return types" warning, the fragment is not rejected (the
warning path is non-fatal and `endFragment` proceeds), but no entry-point
signature is selected at all: the `switch` on the mask reaches its
`default` case (a debug-build assertion), so the only registry effect of
the classification step is storing the label map, and the entry/return
slot keeps its previous contents. -/
theorem C3_multiple_return_types (mask : Nat) (name : String) (code : Nat)
    (labels : List (String × Node)) (m : Fragments)
    (h : returnTypeWarning mask = some FragWarning.multipleReturnTypes) :
    selectReturnType mask = none
    ∧ endFragmentUpdate name mask code labels m =
        fragUpdate m name (fun r => { r with mLabels := labels }) := by
  have hmask : mask ≠ 1 ∧ mask ≠ 2 ∧ mask ≠ 4 ∧ mask ≠ 8 ∧ mask ≠ 16 ∧ mask ≠ 32 := by
    by_contra hcon
    unfold returnTypeWarning at h
    by_cases h0 : mask = 0
    · simp [h0] at h
    · simp [h0, hcon] at h
  have hsel : selectReturnType mask = none := by
    unfold selectReturnType
    simp [hmask.1, hmask.2.1, hmask.2.2.1, hmask.2.2.2.1, hmask.2.2.2.2.1,
      hmask.2.2.2.2.2]
  refine ⟨hsel, ?_⟩
  unfold endFragmentUpdate
  rw [hsel]

/-- C3, amended, witness at mask `5 = RT_INT ||| RT_DOUBLE`, fragment
name `f`, an empty registry. -/
theorem C3_multiple_return_types_witness :
    selectReturnType 5 = none
    ∧ endFragmentUpdate "f" 5 77 [("g", ⟨4, LTy.I⟩)] [] =
        fragUpdate [] "f" (fun r => { r with mLabels := [("g", ⟨4, LTy.I⟩)] }) :=
  C3_multiple_return_types 5 "f" 77 [("g", ⟨4, LTy.I⟩)] [] (by decide)

/-! ## Claim C4 — call operands are filled in reverse lexical order -/

/-- C4: whenever `assemble_call` succeeds on a statement
`op func abi arg1 … argN` — builtin or user-defined — the call node's
operand vector has `N` slots and slot `i` holds the node `ref` resolves
for argument token `N-1-i` (reverse lexical order). -/
theorem C4_call_args_reverse (mOpcode : CallOpcode) (op func abi : String)
    (argToks : List String) (mLabels : List (String × Node))
    (mFragments : Fragments) (c : CallIns)
    (h : assemble_call mOpcode op (func :: abi :: argToks) mLabels mFragments = .ok c) :
    c.args.length = argToks.length
    ∧ ∀ i, i < argToks.length →
        ref mLabels (argToks.getD (argToks.length - 1 - i) "") =
          .ok (c.args.getD i ⟨0, .V⟩) := by
  have hdrop : (func :: abi :: argToks).drop 2 = argToks := by
    simp
  have hargs : ∃ args, refAll mLabels argToks.reverse = .ok args ∧ c.args = args := by
    simp only [assemble_call, badMsg, hdrop] at h
    split at h
    · exact Except.noConfusion h
    · split at h
      · exact Except.noConfusion h
      · split at h
        · exact Except.noConfusion h
        · split at h
          · exact Except.noConfusion h
          · -- builtin branch
            split at h
            · exact Except.noConfusion h
            · split at h
              · exact Except.noConfusion h
              · split at h
                · exact Except.noConfusion h
                · rename_i args hra _
                  cases h
                  exact ⟨args, hra, rfl⟩
          · -- user-defined branch
            split at h
            · exact Except.noConfusion h
            · split at h
              · exact Except.noConfusion h
              · rename_i args hra _ _ _
                cases h
                exact ⟨args, hra, rfl⟩
  obtain ⟨args, hra, hc⟩ := hargs
  obtain ⟨hlen, hspec⟩ := refAll_ok_spec mLabels argToks.reverse args hra
  subst hc
  constructor
  · simpa using hlen
  · intro i hi
    have hi' : i < argToks.reverse.length := by simpa using hi
    have := hspec i hi'
    rwa [getD_reverse argToks i hi ""] at this

/-- C4, witness: the user-defined call `calli m fastcall a b` over labels
`a ↦ node 1`, `b ↦ node 2` produces the operand vector
`[node 2, node 1]` — slot 0 holds the node of the last token. -/
theorem C4_call_args_reverse_witness :
    (CallIns.mk "m" .ABI_FASTCALL false .ARGTYPE_I [.ARGTYPE_I, .ARGTYPE_I]
        [⟨2, LTy.I⟩, ⟨1, LTy.I⟩]).args.length = (["a", "b"] : List String).length
    ∧ ∀ i, i < (["a", "b"] : List String).length →
        ref [("a", ⟨1, LTy.I⟩), ("b", ⟨2, LTy.I⟩)]
            ((["a", "b"] : List String).getD ((["a", "b"] : List String).length - 1 - i) "") =
          .ok ((CallIns.mk "m" .ABI_FASTCALL false .ARGTYPE_I [.ARGTYPE_I, .ARGTYPE_I]
              [⟨2, LTy.I⟩, ⟨1, LTy.I⟩]).args.getD i ⟨0, .V⟩) :=
  C4_call_args_reverse .calli "calli" "m" "fastcall" ["a", "b"]
    [("a", ⟨1, LTy.I⟩), ("b", ⟨2, LTy.I⟩)] [("m", LirasmFragment.empty)]
    (CallIns.mk "m" .ABI_FASTCALL false .ARGTYPE_I [.ARGTYPE_I, .ARGTYPE_I]
      [⟨2, LTy.I⟩, ⟨1, LTy.I⟩]) rfl

/-! ## Claim C5 — jump resolution -/

/-- `resolve_jumps` succeeds exactly when every name on the worklist is
present in `mJumpLabels`; labels no worklist entry references play no
role. -/
theorem resolve_jumps_ok_iff (mJumps : List (String × Nat))
    (mJumpLabels : List (String × Node)) :
    exceptOk (resolve_jumps mJumps mJumpLabels) = true ↔
      ∀ p ∈ mJumps, (labelFind mJumpLabels p.1).isSome = true := by
  induction mJumps with
  | nil => simp [resolve_jumps, exceptOk]
  | cons hd tl ih =>
    obtain ⟨name, ins⟩ := hd
    simp only [resolve_jumps]
    cases hlf : labelFind mJumpLabels name with
    | none =>
      simp only [badMsg, exceptOk]
      constructor
      · intro h
        exact absurd h (by simp)
      · intro h
        have := h (name, ins) (by simp)
        rw [hlf] at this
        simp at this
    | some t =>
      cases hrr : resolve_jumps tl mJumpLabels with
      | error e =>
        rw [hrr] at ih
        simp only [exceptOk] at ih
        constructor
        · intro h
          exact absurd h (by simp [exceptOk])
        · intro h
          exact absurd (fun p hp => h p (List.mem_cons_of_mem _ hp))
            (by simpa using ih)
      | ok tl' =>
        rw [hrr] at ih
        simp only [exceptOk, true_iff] at ih ⊢
        intro p hp
        rcases List.mem_cons.mp hp with rfl | hmem
        · simp [hlf]
        · exact ih p hmem

/-- On success, `resolve_jumps` sets, pair by pair, the recorded branch's
target to the node its name maps to in `mJumpLabels`. -/
theorem resolve_jumps_ok_spec (mJumps : List (String × Nat))
    (mJumpLabels : List (String × Node)) (a : List (Nat × Node))
    (h : resolve_jumps mJumps mJumpLabels = .ok a) :
    a.length = mJumps.length ∧
      ∀ i, i < mJumps.length →
        (a.getD i (0, ⟨0, .V⟩)).1 = (mJumps.getD i ("", 0)).2 ∧
        labelFind mJumpLabels (mJumps.getD i ("", 0)).1 =
          some (a.getD i (0, ⟨0, .V⟩)).2 := by
  induction mJumps generalizing a with
  | nil =>
    simp only [resolve_jumps, Except.ok.injEq] at h
    subst h
    simp
  | cons hd tl ih =>
    obtain ⟨name, ins⟩ := hd
    simp only [resolve_jumps] at h
    cases hlf : labelFind mJumpLabels name with
    | none =>
      simp only [hlf, badMsg] at h
      exact Except.noConfusion h
    | some t =>
      simp only [hlf] at h
      cases hrr : resolve_jumps tl mJumpLabels with
      | error e =>
        simp only [hrr] at h
        exact Except.noConfusion h
      | ok tl' =>
        simp only [hrr, Except.ok.injEq] at h
        subst h
        obtain ⟨hlen, hspec⟩ := ih tl' hrr
        refine ⟨by simp [hlen], ?_⟩
        intro i hi
        cases i with
        | zero => exact ⟨rfl, by simpa using hlf⟩
        | succ j =>
          simpa using hspec j (by simpa using hi)

/-- C5: after `endFragment` every branch recorded by a `j`/`jt`/`jf` or
jump-on-overflow statement has a non-null target — `resolve_jumps`
succeeds exactly when every worklist name is present in `mJumpLabels`
(unreferenced labels are permitted), a missing name is fatal, and on
success each recorded branch's target is set to the node of its label;
moreover the branches recorded by `assemble_jump` and
`assemble_jump_jov` are emitted with a null target and their worklist
pair names them. -/
theorem C5_jump_resolution (mJumps : List (String × Nat))
    (mJumpLabels mLabels : List (String × Node)) :
    (exceptOk (resolve_jumps mJumps mJumpLabels) = true ↔
      ∀ p ∈ mJumps, (labelFind mJumpLabels p.1).isSome = true)
    ∧ (∀ a, resolve_jumps mJumps mJumpLabels = .ok a →
        a.length = mJumps.length ∧
        ∀ i, i < mJumps.length →
          (a.getD i (0, ⟨0, .V⟩)).1 = (mJumps.getD i ("", 0)).2 ∧
          labelFind mJumpLabels (mJumps.getD i ("", 0)).1 =
            some (a.getD i (0, ⟨0, .V⟩)).2)
    ∧ (∀ isCond toks nid br pr,
        assemble_jump isCond toks mLabels nid = .ok (br, pr) →
        br.target = none ∧ br.id = nid ∧ pr.2 = nid)
    ∧ (∀ toks nid br pr,
        assemble_jump_jov toks mLabels nid = .ok (br, pr) →
        br.target = none ∧ br.id = nid ∧ pr.2 = nid) := by
  refine ⟨resolve_jumps_ok_iff mJumps mJumpLabels,
    fun a h => resolve_jumps_ok_spec mJumps mJumpLabels a h, ?_, ?_⟩
  · intro isCond toks nid br pr h
    cases isCond with
    | false =>
      simp only [assemble_jump, Bool.false_eq_true, if_false] at h
      split at h
      · exact Except.noConfusion h
      · cases h
        exact ⟨rfl, rfl, rfl⟩
    | true =>
      simp only [assemble_jump, if_true] at h
      split at h
      · exact Except.noConfusion h
      · split at h
        · exact Except.noConfusion h
        · cases h
          exact ⟨rfl, rfl, rfl⟩
  · intro toks nid br pr h
    simp only [assemble_jump_jov] at h
    split at h
    · exact Except.noConfusion h
    · split at h
      · exact Except.noConfusion h
      · split at h
        · exact Except.noConfusion h
        · cases h
          exact ⟨rfl, rfl, rfl⟩

/-! ## Claim C6 — duplicate labels and duplicate value names are fatal -/

/-- C6: within one fragment, (a) entering the same jump-label name into
`mJumpLabels` a second time (a second `lab:` at another location) is
fatal, and (b) once a statement has bound a value name into `mLabels`
(the `name =` binding at line 1304), a later statement `name = …` is
rejected fatally by `extract_any_label` with "duplicate label". -/
theorem C6_duplicate_labels_fatal (lab : String) (i1 i2 ins : Node)
    (mJumpLabels jl' mLabels : List (String × Node)) (toks : List String)
    (h1 : add_jump_label lab i1 mJumpLabels = .ok jl')
    (h2 : 2 < toks.length)
    (h3 : toks.getD 0 "" = lab)
    (h4 : (toks.getD 1 "").data = ['=']) :
    add_jump_label lab i2 jl' =
      .error ("Label \x27" ++ lab ++ "\x27 found at multiple locations.")
    ∧ extract_any_label toks '=' (bindLabel lab ins mLabels) =
        .error "duplicate label" := by
  constructor
  · unfold add_jump_label at h1 ⊢
    split at h1
    · exact Except.noConfusion h1
    · simp only [Except.ok.injEq] at h1
      subst h1
      simp [labelFind, badMsg]
  · have hfind : (labelFind (bindLabel lab ins mLabels) lab).isSome = true := by
      unfold bindLabel
      split
      · assumption
      · simp [labelFind]
    unfold extract_any_label
    rw [if_pos ⟨h2, h4⟩, h3, if_pos hfind]
    rfl

/-- C6, witness: jump label `x` added twice, and value name `x` bound by
one statement then re-extracted by a later `x = immi 3` line. -/
theorem C6_duplicate_labels_witness :
    add_jump_label "x" ⟨2, LTy.I⟩ [("x", ⟨1, LTy.I⟩)] =
      .error ("Label \x27x\x27 found at multiple locations.")
    ∧ extract_any_label ["x", "=", "immi", "3"] '='
        (bindLabel "x" ⟨3, LTy.I⟩ []) = .error "duplicate label" :=
  C6_duplicate_labels_fatal "x" ⟨1, LTy.I⟩ ⟨2, LTy.I⟩ ⟨3, LTy.I⟩ [] [("x", ⟨1, LTy.I⟩)]
    [] ["x", "=", "immi", "3"] rfl (by decide) rfl rfl

/-! ## Claim C9 — loads require an immediate second operand -/

/-- C9: `assemble_load` succeeds only when the second operand token
begins with `0x`, `0X` or a decimal digit; with exactly two tokens, any
other second operand (a name, a negative literal such as `-4`, …) is
rejected fatally with "immediate offset required for load". -/
theorem C9_load_offset_immediate (mTokens : List String)
    (mLabels : List (String × Node)) :
    (∀ l, assemble_load mTokens mLabels = .ok l →
      loadOffsetIsImm (mTokens.getD 1 "") = true)
    ∧ (mTokens.length = 2 → loadOffsetIsImm (mTokens.getD 1 "") = false →
        assemble_load mTokens mLabels =
          .error "immediate offset required for load") := by
  constructor
  · intro l h
    simp only [assemble_load] at h
    split at h
    · exact Except.noConfusion h
    · split at h
      · assumption
      · exact absurd h (by simp [badMsg])
  · intro hlen hoff
    simp only [assemble_load, need, hlen, badMsg]
    rw [if_neg (by omega), hoff]
    simp

/-- C9, witness: `ldi p -4` (a negative-literal offset) is rejected with
the "immediate offset required for load" diagnostic. -/
theorem C9_load_offset_witness :
    assemble_load ["p", "-4"] [("p", ⟨0, LTy.P⟩)] =
      .error "immediate offset required for load" :=
  (C9_load_offset_immediate ["p", "-4"] [("p", ⟨0, LTy.P⟩)]).2 rfl (by decide)

/-! ## Claim C8 — exactly one of `--random` and a filename -/

/-- C8: `processCmdLine` (which `main` runs before constructing the
assembler) accepts a command line only when exactly one of `--random`
and an input filename was supplied; when the flag loop ends with neither
or both, it exits with code 1 and the
"you must specify either a filename or --random (but not both)" message,
so `main` never reaches the assembly stage. -/
theorem C8_cli_random_xor_filename (argv : List String) (opts : CmdLineOptions) :
    (processCmdLine argv = .ok opts →
      ((opts.random ≠ 0 ∧ opts.filename = "") ∨ (opts.random = 0 ∧ opts.filename ≠ "")))
    ∧ (processArgsLoop argv.tail (initialOpts argv) = .ok opts →
        ((opts.random = 0) ↔ (opts.filename = "")) →
        processCmdLine argv = .error (errMsgAndQuit eitherFilenameOrRandomMsg)
        ∧ mainStart argv = .exited (errMsgAndQuit eitherFilenameOrRandomMsg)) := by
  constructor
  · intro h
    unfold processCmdLine at h
    cases hpl : processArgsLoop argv.tail (initialOpts argv) with
    | error e =>
      rw [hpl] at h
      exact Except.noConfusion h
    | ok o =>
      rw [hpl] at h
      have h' : (if (o.random = 0 ∧ o.filename = "") ∨ (o.random ≠ 0 ∧ o.filename ≠ "")
          then (Except.error (errMsgAndQuit eitherFilenameOrRandomMsg) :
                  Except ExitAction CmdLineOptions)
          else .ok o) = .ok opts := h
      split at h'
      · exact Except.noConfusion h'
      · simp only [Except.ok.injEq] at h'
        subst h'
        rename_i hcond
        tauto
  · intro hpl hiff
    have hcond : (opts.random = 0 ∧ opts.filename = "") ∨
        (opts.random ≠ 0 ∧ opts.filename ≠ "") := by
      by_cases hr : opts.random = 0
      · exact Or.inl ⟨hr, hiff.mp hr⟩
      · exact Or.inr ⟨hr, fun hf => hr (hiff.mpr hf)⟩
    have hp : processCmdLine argv = .error (errMsgAndQuit eitherFilenameOrRandomMsg) := by
      unfold processCmdLine
      rw [hpl]
      show (if (opts.random = 0 ∧ opts.filename = "") ∨ (opts.random ≠ 0 ∧ opts.filename ≠ "")
          then (Except.error (errMsgAndQuit eitherFilenameOrRandomMsg) :
                  Except ExitAction CmdLineOptions)
          else .ok opts) = .error (errMsgAndQuit eitherFilenameOrRandomMsg)
      rw [if_pos hcond]
    refine ⟨hp, ?_⟩
    unfold mainStart
    rw [hp]

/-- C8, witness: the bare command line `lirasm` (no `--random`, no
filename) is rejected with exit code 1 before any assembly starts. -/
theorem C8_cli_witness :
    processCmdLine ["lirasm"] = .error (errMsgAndQuit eitherFilenameOrRandomMsg)
    ∧ mainStart ["lirasm"] = .exited (errMsgAndQuit eitherFilenameOrRandomMsg) :=
  (C8_cli_random_xor_filename ["lirasm"] (initialOpts ["lirasm"])).2 rfl (by simp [initialOpts])

/-! ## Claim C10 — reassembling a fragment name silently overwrites -/

/-- C10: assembling a fragment whose name is already in the registry is
not an error — neither the constructor's `mFragments[name].fragptr`
store nor `endFragment` checks for a pre-existing entry (both are total
updates) — and afterwards the name maps to the most recently assembled
fragment's `fragptr`, entry point with its return type, and label
map, whatever the earlier assembly stored. -/
theorem C10_registry_overwrite (name : String) (p1 p2 mask1 code1 code2 : Nat)
    (mask2 : Nat) (labels1 labels2 : List (String × Node)) (m : Fragments)
    (rt2 : ReturnType) (h : selectReturnType mask2 = some rt2) :
    fragFind (assembleFragmentRegistry name p2 mask2 code2 labels2
        (assembleFragmentRegistry name p1 mask1 code1 labels1 m)) name =
      some ⟨p2, some (rt2, code2), labels2⟩ := by
  unfold assembleFragmentRegistry endFragmentUpdate registerFragptr
  rw [h]
  simp [fragFind_fragUpdate]

/-- C10, witness: fragment `f` assembled twice (first as an `int`
fragment with code address 10, then as a `double` fragment with code
address 20); the registry ends up with the second record. -/
theorem C10_registry_overwrite_witness :
    fragFind (assembleFragmentRegistry "f" 2 4 20 [("b", ⟨2, LTy.I⟩)]
        (assembleFragmentRegistry "f" 1 1 10 [("a", ⟨1, LTy.I⟩)] [])) "f" =
      some ⟨2, some (ReturnType.RT_DOUBLE, 20), [("b", ⟨2, LTy.I⟩)]⟩ :=
  C10_registry_overwrite "f" 1 2 1 10 20 4 [("a", ⟨1, LTy.I⟩)] [("b", ⟨2, LTy.I⟩)] []
    ReturnType.RT_DOUBLE rfl

end Lirasm
